import Mathlib

/-!
Verification of the Fractal Newton-basin visualizer (src/Fractal/Fractal.cpp).

Machine arithmetic is modelled exactly: the kernel scalars (C++ float and
double values flowing through the SYCL kernel) become rationals extended with
an absorbing element `none` that stands for a non-finite value (NaN); its
arithmetic propagates and every ordered comparison against it is false, as in
IEEE semantics for NaN.  Viewport scalars (C++ double) become plain rationals;
rounding is not modelled.  The SYCL `parallel_for` passes are modelled as pure
per-cell maps over the row-major list of pixel indices, and the output byte
buffer as a function from byte index to byte value, zero-initialised to model
the `memset` at the top of `newton`.
-/

/-- Fixed constant from the source: `WIDTH = 1024`. -/
def WIDTH : ℕ := 1024

/-- Fixed constant from the source: `HEIGHT = 768`. -/
def HEIGHT : ℕ := 768

/-- Fixed constant from the source: `FILL_INTENSITY = 255`. -/
def FILL_INTENSITY : ℕ := 255

/-- Fixed constant from the source: `ITERATION_COUNT = 20`. -/
def ITERATION_COUNT : ℕ := 20

/-- Kernel scalar: a finite value is a rational; `none` models a non-finite
value (NaN), which absorbs through arithmetic. -/
abbrev KVal : Type := Option ℚ

/-- Scalar addition with non-finite propagation. -/
def kadd : KVal → KVal → KVal
  | some x, some y => some (x + y)
  | _, _ => none

/-- Scalar subtraction with non-finite propagation. -/
def ksub : KVal → KVal → KVal
  | some x, some y => some (x - y)
  | _, _ => none

/-- Scalar multiplication with non-finite propagation. -/
def kmul : KVal → KVal → KVal
  | some x, some y => some (x * y)
  | _, _ => none

/-- Scalar division: division by zero and non-finite operands give a
non-finite result (the kernel makes no provision for either). -/
def kdiv : KVal → KVal → KVal
  | some x, some y => if y = 0 then none else some (x / y)
  | _, _ => none

/-- Ordered comparison; every comparison against a non-finite value is false,
as for IEEE NaN. -/
def kle : KVal → KVal → Bool
  | some x, some y => decide (x ≤ y)
  | _, _ => false

/-- Kernel complex number, modelling `std::complex<float>`. -/
structure KC where
  re : KVal
  im : KVal
deriving DecidableEq

/-- Complex addition, componentwise. -/
def cadd (x y : KC) : KC := ⟨kadd x.re y.re, kadd x.im y.im⟩

/-- Complex subtraction, componentwise. -/
def csub (x y : KC) : KC := ⟨ksub x.re y.re, ksub x.im y.im⟩

/-- Complex multiplication, the textbook formula used by `std::complex`. -/
def cmul (x y : KC) : KC :=
  ⟨ksub (kmul x.re y.re) (kmul x.im y.im),
   kadd (kmul x.re y.im) (kmul x.im y.re)⟩

/-- Complex division, the textbook formula: multiply by the conjugate and
divide by the squared modulus of the divisor. -/
def cdiv (x y : KC) : KC :=
  ⟨kdiv (kadd (kmul x.re y.re) (kmul x.im y.im))
        (kadd (kmul y.re y.re) (kmul y.im y.im)),
   kdiv (ksub (kmul x.im y.re) (kmul x.re y.im))
        (kadd (kmul y.re y.re) (kmul y.im y.im))⟩

/-- Complex times real scalar on the right, modelling `std::complex * float`
(componentwise). -/
def smulr (x : KC) (q : ℚ) : KC := ⟨kmul x.re (some q), kmul x.im (some q)⟩

/-- Real scalar times complex on the left, componentwise. -/
def smull (q : ℚ) (x : KC) : KC := ⟨kmul (some q) x.re, kmul (some q) x.im⟩

/-- Seed pass, one cell: the source writes
`vec[i] = complex(left + unit * i[1], top - unit * i[0])` where `i[0]` is the
row and `i[1]` the column. -/
def seed (unit left top : KVal) (row col : ℕ) : KC :=
  ⟨kadd left (kmul unit (some (col : ℚ))),
   ksub top (kmul unit (some (row : ℚ)))⟩

/-- Precomputed `sum = a + b + c` from the source. -/
def kernelSum (a b c : KC) : KC := cadd (cadd a b) c

/-- Precomputed `prod_sum = a * b + a * c + b * c` from the source. -/
def kernelProdSum (a b c : KC) : KC :=
  cadd (cadd (cmul a b) (cmul a c)) (cmul b c)

/-- Precomputed `prod = a * b * c` from the source. -/
def kernelProd (a b c : KC) : KC := cmul (cmul a b) c

/-- One cell of the iterate pass, translated from the source:
`sqr = x * x; v = sqr * x - sum * sqr + prod_sum * x - prod;
d = sqr * 3.0f - sum * x * 2.0f + prod_sum; vec[i] = x - v / d`. -/
def newtonKernelStep (sum prod_sum prod x : KC) : KC :=
  let sqr := cmul x x
  let v := csub (cadd (csub (cmul sqr x) (cmul sum sqr)) (cmul prod_sum x)) prod
  let d := cadd (csub (smulr sqr 3) (smulr (cmul sum x) 2)) prod_sum
  csub x (cdiv v d)

/-- The iterate pass as seen by a single cell: the source submits the step
kernel once per loop iteration, `iterations` times in total. -/
def iterPass (a b c : KC) : ℕ → KC → KC
  | 0, z => z
  | n + 1, z =>
      iterPass a b c n
        (newtonKernelStep (kernelSum a b c) (kernelProdSum a b c)
          (kernelProd a b c) z)

/-- Squared modulus of a complex value as computed in the classify pass:
`d.real() * d.real() + d.imag() * d.imag()`. -/
def hyp2 (d : KC) : KVal := kadd (kmul d.re d.re) (kmul d.im d.im)

/-- Pointwise update of the byte buffer. -/
def writeByte (out : ℕ → ℕ) (i v : ℕ) : ℕ → ℕ :=
  fun j => if j = i then v else out j

/-- One cell of the classify pass, translated from the source: compute the
squared distances to the three roots and set exactly one channel of the
4-byte pixel at `(row * w + col) * 4` to `FILL_INTENSITY`. -/
def classifyWrite (a b c : KC) (w : ℕ) (x : KC) (row col : ℕ)
    (out : ℕ → ℕ) : ℕ → ℕ :=
  let da_hyp := hyp2 (csub x a)
  let db_hyp := hyp2 (csub x b)
  let dc_hyp := hyp2 (csub x c)
  let index := (row * w + col) * 4
  if kle da_hyp db_hyp && kle da_hyp dc_hyp then
    writeByte out index FILL_INTENSITY
  else if kle db_hyp da_hyp && kle db_hyp dc_hyp then
    writeByte out (index + 1) FILL_INTENSITY
  else
    writeByte out (index + 2) FILL_INTENSITY

/-- Row-major enumeration of the 2-D index range `{h, w}` of the
`parallel_for` passes: cell number `n` is row `n / w`, column `n % w`. -/
def pixList (h w : ℕ) : List (ℕ × ℕ) :=
  (List.range (h * w)).map fun n => (n / w, n % w)

/-- The all-zero byte buffer produced by the `memset` in `newton`. -/
def zeroBuf : ℕ → ℕ := fun _ => 0

/-- Final iterate of one cell: seed, then the iterate pass. -/
def finalZ (a b c : KC) (N : ℕ) (unit left top : KVal) (p : ℕ × ℕ) : KC :=
  iterPass a b c N (seed unit left top p.1 p.2)

/-- The output buffer of `newton`: zero-filled by `memset`, then every cell of
the classify pass writes its own pixel. -/
def newtonOut (a b c : KC) (N w h : ℕ) (unit left top : KVal) : ℕ → ℕ :=
  (pixList h w).foldl
    (fun out p =>
      classifyWrite a b c w (finalZ a b c N unit left top p) p.1 p.2 out)
    zeroBuf

/-- Modelled from the words of the spec: `S = a + b + c`. -/
def specS (a b c : KC) : KC := cadd (cadd a b) c

/-- Modelled from the words of the spec: `Q = ab + ac + bc`. -/
def specQ (a b c : KC) : KC := cadd (cadd (cmul a b) (cmul a c)) (cmul b c)

/-- Modelled from the words of the spec: `P = abc`. -/
def specP (a b c : KC) : KC := cmul (cmul a b) c

/-- Modelled from the words of the spec: the cubic
`p(z) = z^3 - S z^2 + Q z - P`. -/
def specPoly (S Q P z : KC) : KC :=
  csub (cadd (csub (cmul (cmul z z) z) (cmul S (cmul z z))) (cmul Q z)) P

/-- Modelled from the words of the spec: the derivative
`p(z) changes as 3 z^2 - 2 S z + Q`. -/
def specPolyD (S Q z : KC) : KC :=
  cadd (csub (smull 3 (cmul z z)) (smull 2 (cmul S z))) Q

/-- Modelled from the words of the spec: one Newton update
`z - p(z) / dp(z)`, with unguarded complex division. -/
def specNewtonStep (S Q P z : KC) : KC :=
  csub z (cdiv (specPoly S Q P z) (specPolyD S Q z))

/-- Coordinate mapper, translated from the source (`double` arithmetic,
modelled as exact rationals). -/
def coords_to_pix_x (x left unit_width : ℚ) : ℚ :=
  (x - left) / unit_width * (WIDTH : ℚ)

/-- Coordinate mapper, y direction. -/
def coords_to_pix_y (y top unit_height : ℚ) : ℚ :=
  (top - y) / unit_height * (HEIGHT : ℚ)

/-- Inverse coordinate mapper, x direction. -/
def pix_to_coords_x (x left unit_width : ℚ) : ℚ :=
  x / (WIDTH : ℚ) * unit_width + left

/-- Inverse coordinate mapper, y direction. -/
def pix_to_coords_y (y top unit_height : ℚ) : ℚ :=
  top - y / (HEIGHT : ℚ) * unit_height

/-- Marker hit test from the source: an open axis-aligned square of
half-side 5 around `(x1, y1)`. -/
def is_in_range (x1 y1 x2 y2 : ℚ) : Bool :=
  decide (|x1 - x2| < 5) && decide (|y1 - y2| < 5)

/-- Mouse button of an SDL button event; buttons other than left and right
are ignored by the handlers. -/
inductive MouseButton where
  | left
  | right
  | other
deriving DecidableEq

/-- Key symbol of an SDL keydown event; keys other than R, Up and Down are
ignored by the keydown handler. -/
inductive Key where
  | r
  | up
  | down
  | other
deriving DecidableEq

/-- Events drained by the frame loop, with the payload fields the handlers
actually read.  Integer pixel coordinates and deltas are modelled as
rationals, matching the double arithmetic they immediately enter. -/
inductive Event where
  | quit
  | windowResized
  | buttonUp (b : MouseButton)
  | buttonDown (b : MouseButton) (x y : ℚ)
  | motion (x y xrel yrel : ℚ)
  | wheel (y : ℤ)
  | keydown (k : Key)

/-- Held-key snapshot returned by `SDL_GetKeyboardState`, restricted to the
keys the loop samples. -/
structure Keys where
  kA : Bool
  kD : Bool
  kW : Bool
  kS : Bool
  lshift : Bool
  rshift : Bool
  space : Bool

/-- Application state of `main`: roots, viewport, iteration count, marker
rectangles (top-left corners; width and height are the constant 10), the two
pointer-mode flags, and the loop flags. -/
structure AppState where
  running : Bool
  changed : Bool
  iteration_count : ℕ
  a : ℚ × ℚ
  b : ℚ × ℚ
  c : ℚ × ℚ
  unit_width : ℚ
  left : ℚ
  top : ℚ
  unit_height : ℚ
  roots0 : ℚ × ℚ
  roots1 : ℚ × ℚ
  roots2 : ℚ × ℚ
  point_dragging_index : ℕ
  position_dragging : Bool

/-- Initial state set up at the top of `main` (lines 136 to 146 of the
source). -/
def initState : AppState where
  running := true
  changed := true
  iteration_count := ITERATION_COUNT
  a := (-2, 1)
  b := (2, 2)
  c := (-1, -2)
  unit_width := 10
  left := -5
  top := 4
  unit_height := 10 * ((HEIGHT : ℚ) / (WIDTH : ℚ))
  roots0 := (0, 0)
  roots1 := (0, 0)
  roots2 := (0, 0)
  point_dragging_index := 0
  position_dragging := false

/-- Event handler, translated from the `switch` in the event drain loop of
`main`.  Logging calls are dropped; everything that mutates state is kept. -/
def stepEvent (e : Event) (s : AppState) : AppState :=
  match e with
  | .quit => { s with running := false }
  | .windowResized => { s with changed := true }
  | .buttonUp .left => { s with point_dragging_index := 0 }
  | .buttonUp .right => { s with position_dragging := false }
  | .buttonUp .other => s
  | .buttonDown .left x y =>
      if is_in_range (s.roots0.1 + 5) (s.roots0.2 + 5) x y then
        { s with changed := true, point_dragging_index := 1 }
      else if is_in_range (s.roots1.1 + 5) (s.roots1.2 + 5) x y then
        { s with changed := true, point_dragging_index := 2 }
      else if is_in_range (s.roots2.1 + 5) (s.roots2.2 + 5) x y then
        { s with changed := true, point_dragging_index := 3 }
      else s
  | .buttonDown .right _ _ => { s with position_dragging := true }
  | .buttonDown .other _ _ => s
  | .motion x y xrel yrel =>
      if s.point_dragging_index ≠ 0 then
        let px := pix_to_coords_x x s.left s.unit_width
        let py := pix_to_coords_y y s.top s.unit_height
        match s.point_dragging_index with
        | 1 => { s with changed := true, a := (px, py) }
        | 2 => { s with changed := true, b := (px, py) }
        | 3 => { s with changed := true, c := (px, py) }
        | _ => { s with changed := true }
      else if s.position_dragging then
        { s with changed := true,
                 left := s.left - xrel * s.unit_width / (WIDTH : ℚ),
                 top := s.top + yrel * s.unit_height / (HEIGHT : ℚ) }
      else s
  | .wheel y =>
      if y = 0 then s
      else
        { s with changed := true,
                 top := s.top - s.unit_height * (y : ℚ) * (25 / 1000),
                 left := s.left + s.unit_width * (y : ℚ) * (25 / 1000),
                 unit_width := s.unit_width * (95 / 100 : ℚ) ^ y,
                 unit_height :=
                   s.unit_width * (95 / 100 : ℚ) ^ y *
                     ((HEIGHT : ℚ) / (WIDTH : ℚ)) }
  | .keydown .r =>
      { s with a := (-2, 1), b := (2, 2), c := (-1, -2),
               unit_width := 10, left := -5, top := 4,
               unit_height := 10 * ((HEIGHT : ℚ) / (WIDTH : ℚ)),
               point_dragging_index := 0,
               position_dragging := false,
               iteration_count := 20,
               changed := true }
  | .keydown .up =>
      { s with iteration_count := s.iteration_count + 1, changed := true }
  | .keydown .down =>
      { s with iteration_count :=
                 (if s.iteration_count = 0 then 1 else s.iteration_count) - 1,
               changed := true }
  | .keydown .other => s

/-- Held A and D keys: horizontal pan, opposing keys cancel. -/
def heldPanLR (k : Keys) (s : AppState) : AppState :=
  if k.kA && k.kD then s
  else if k.kA then
    { s with changed := true, left := s.left - s.unit_width * (1 / 100) }
  else if k.kD then
    { s with changed := true, left := s.left + s.unit_width * (1 / 100) }
  else s

/-- Held W and S keys: vertical pan; the source moves `top` by a multiple of
`unit_width`, not `unit_height`, and checks S before W. -/
def heldPanUD (k : Keys) (s : AppState) : AppState :=
  if k.kW && k.kS then s
  else if k.kS then
    { s with changed := true, top := s.top - s.unit_width * (1 / 100) }
  else if k.kW then
    { s with changed := true, top := s.top + s.unit_width * (1 / 100) }
  else s

/-- Held Shift and Space keys: keyboard zoom with the fixed 2.5 percent
focal offset, opposing keys cancel. -/
def heldZoom (k : Keys) (s : AppState) : AppState :=
  if (k.lshift || k.rshift) && k.space then s
  else if k.lshift || k.rshift then
    { s with changed := true,
             top := s.top - s.unit_height * (25 / 1000),
             left := s.left + s.unit_width * (25 / 1000),
             unit_width := s.unit_width * (95 / 100),
             unit_height :=
               s.unit_width * (95 / 100) * ((HEIGHT : ℚ) / (WIDTH : ℚ)) }
  else if k.space then
    { s with changed := true,
             top := s.top + s.unit_height * (25 / 1000),
             left := s.left - s.unit_width * (25 / 1000),
             unit_width := s.unit_width * (105 / 100),
             unit_height :=
               s.unit_width * (105 / 100) * ((HEIGHT : ℚ) / (WIDTH : ℚ)) }
  else s

/-- Per-frame held-key sampling, in source order: A and D, then W and S, then
Shift and Space. -/
def stepHeld (k : Keys) (s : AppState) : AppState :=
  heldZoom k (heldPanUD k (heldPanLR k s))

/-- Render block of the frame loop: when `changed`, re-render, reposition the
three marker rectangles at the pixel projections of the roots, and clear
`changed`. -/
def renderStep (s : AppState) : AppState :=
  if s.changed then
    { s with
        roots0 := (coords_to_pix_x s.a.1 s.left s.unit_width - 5,
                   coords_to_pix_y s.a.2 s.top s.unit_height - 5),
        roots1 := (coords_to_pix_x s.b.1 s.left s.unit_width - 5,
                   coords_to_pix_y s.b.2 s.top s.unit_height - 5),
        roots2 := (coords_to_pix_x s.c.1 s.left s.unit_width - 5,
                   coords_to_pix_y s.c.2 s.top s.unit_height - 5),
        changed := false }
  else s

/-- States reachable by the interaction machine: the initial state, closed
under single events, held-key sampling, and render steps. -/
inductive Reachable : AppState → Prop where
  | init : Reachable initState
  | ev : ∀ {s : AppState} (e : Event), Reachable s → Reachable (stepEvent e s)
  | held : ∀ {s : AppState} (k : Keys), Reachable s → Reachable (stepHeld k s)
  | render : ∀ {s : AppState}, Reachable s → Reachable (renderStep s)

/-- State after a left button press on the marker of root `a` followed by a
right button press, starting from the initial state. -/
def cexState : AppState :=
  stepEvent (Event.buttonDown MouseButton.right 0 0)
    (stepEvent (Event.buttonDown MouseButton.left 3 3) initState)

/-- Exit code of `main` as a function of which initialization steps succeed:
a failing `SDL_Init` returns 1; failing window, renderer or texture creation
jumps to the cleanup label `end`, which returns 0; a normal close after a
Quit event also falls through to `end` and returns 0. -/
def mainExitCode (sdlInitOk windowOk rendererOk textureOk : Bool) : ℕ :=
  if sdlInitOk = false then 1
  else if windowOk = false then 0
  else if rendererOk = false then 0
  else if textureOk = false then 0
  else 0

/-- Scalar multiplication with non-finite propagation is commutative. -/
theorem kmul_comm (x y : KVal) : kmul x y = kmul y x := by
  cases x <;> cases y <;> simp [kmul, mul_comm]

/-- Multiplying a complex by a scalar on the right, as the source does,
agrees with the left scalar multiple used in the spec formulas. -/
theorem smulr_eq_smull (x : KC) (q : ℚ) : smulr x q = smull q x := by
  cases x
  simp [smulr, smull, kmul_comm]

/-- One cell of the iterate pass computes exactly the Newton update of the
spec, for every input value, finite or not. -/
theorem newtonKernelStep_eq_spec (S Q P x : KC) :
    newtonKernelStep S Q P x = specNewtonStep S Q P x := by
  simp only [newtonKernelStep, specNewtonStep, specPoly, specPolyD,
    smulr_eq_smull]

/-- The precomputed symmetric functions of the source agree with the spec
formulas. -/
theorem kernelSums_eq_spec (a b c : KC) :
    kernelSum a b c = specS a b c ∧ kernelProdSum a b c = specQ a b c ∧
      kernelProd a b c = specP a b c :=
  ⟨rfl, rfl, rfl⟩

/-- C4: the iterate pass applies exactly `N` times the Newton update
`z - p(z) / dp(z)` where `p(z) = z^3 - S z^2 + Q z - P` and
`dp(z) = 3 z^2 - 2 S z + Q`, with `S = a + b + c`, `Q = ab + ac + bc` and
`P = abc` precomputed once, and with unguarded complex division (the step is
applied to every value, with no case split on a vanishing derivative; a zero
divisor yields the non-finite element).  Arithmetic is modelled exactly;
single-precision rounding is outside the model. -/
theorem iterate_pass_is_newton (a b c : KC) (N : ℕ) (z : KC) :
    iterPass a b c N z =
      (fun zz => specNewtonStep (specS a b c) (specQ a b c) (specP a b c) zz)^[N]
        z := by
  induction N generalizing z with
  | zero => rfl
  | succ n ih =>
      rw [iterPass, ih, newtonKernelStep_eq_spec,
        Function.iterate_succ_apply]
      rfl

/-- C6: for every integer pixel inside the window and every viewport with
positive `unit_width` and the aspect-ratio invariant, mapping a pixel to the
complex plane and back is the identity (exact in the rational model; the
1-ulp tolerance of the claim is subsumed by exactness). -/
theorem coords_pix_round_trip (px py : ℕ) (left top uw uh : ℚ)
    (hpx : px < WIDTH) (hpy : py < HEIGHT) (huw : 0 < uw)
    (huh : uh = uw * ((HEIGHT : ℚ) / (WIDTH : ℚ))) :
    coords_to_pix_x (pix_to_coords_x (px : ℚ) left uw) left uw = (px : ℚ) ∧
    coords_to_pix_y (pix_to_coords_y (py : ℚ) top uh) top uh = (py : ℚ) := by
  have hw : (WIDTH : ℚ) ≠ 0 := by norm_num [WIDTH]
  have hh : (HEIGHT : ℚ) ≠ 0 := by norm_num [HEIGHT]
  have huw0 : uw ≠ 0 := ne_of_gt huw
  have huh0 : uh ≠ 0 := by
    rw [huh]
    have : (0 : ℚ) < (HEIGHT : ℚ) / (WIDTH : ℚ) := by norm_num [WIDTH, HEIGHT]
    positivity
  constructor
  · unfold coords_to_pix_x pix_to_coords_x
    field_simp
    ring
  · unfold coords_to_pix_y pix_to_coords_y
    field_simp
    ring

/-- Witness for C6 at the concrete pixel (3, 5) and the initial viewport. -/
theorem coords_pix_round_trip_witness :
    ((3 : ℕ) < WIDTH ∧ (5 : ℕ) < HEIGHT ∧ (0 : ℚ) < 10 ∧
      (10 * ((HEIGHT : ℚ) / (WIDTH : ℚ)) : ℚ) =
        10 * ((HEIGHT : ℚ) / (WIDTH : ℚ))) ∧
    (coords_to_pix_x (pix_to_coords_x ((3 : ℕ) : ℚ) (-5) 10) (-5) 10 =
        ((3 : ℕ) : ℚ) ∧
      coords_to_pix_y
          (pix_to_coords_y ((5 : ℕ) : ℚ) 4 (10 * ((HEIGHT : ℚ) / (WIDTH : ℚ))))
          4 (10 * ((HEIGHT : ℚ) / (WIDTH : ℚ))) = ((5 : ℕ) : ℚ)) :=
  ⟨⟨by norm_num [WIDTH], by norm_num [HEIGHT], by norm_num, rfl⟩,
   coords_pix_round_trip 3 5 (-5) 4 10 _ (by norm_num [WIDTH])
     (by norm_num [HEIGHT]) (by norm_num) rfl⟩

/-- C3 counterexample: when `SDL_Init` succeeds but window creation fails,
the process jumps to the cleanup label and exits with code 0, not a nonzero
code as the claim states. -/
theorem window_fail_exit_zero : mainExitCode true false true true = 0 := rfl

/-- C3 amended: only a failing `SDL_Init` produces the nonzero exit code 1;
a failure of window, renderer or texture creation cleans up and exits with
code 0, the same code as a normal close after a Quit event. -/
theorem sdl_exit_codes (w r t : Bool) :
    mainExitCode false w r t = 1 ∧ mainExitCode true w r t = 0 := by
  cases w <;> cases r <;> cases t <;> exact ⟨rfl, rfl⟩

/-- C7: the iteration count starts at 20; KeyDown(Up) increments it by one;
KeyDown(Down) decrements it, except that from 0 it stays at 0 (the source
first bumps 0 to 1 and then decrements).  The count lives in the
non-negative integers, mirroring the `size_t` of the source. -/
theorem iteration_count_behavior :
    initState.iteration_count = 20 ∧
    (∀ s : AppState,
      (stepEvent (Event.keydown Key.up) s).iteration_count =
        s.iteration_count + 1) ∧
    (∀ s : AppState, s.iteration_count = 0 →
      (stepEvent (Event.keydown Key.down) s).iteration_count = 0) ∧
    (∀ (s : AppState) (n : ℕ), s.iteration_count = n + 1 →
      (stepEvent (Event.keydown Key.down) s).iteration_count = n) := by
  refine ⟨rfl, fun s => rfl, fun s h => ?_, fun s n h => ?_⟩
  · simp [stepEvent, h]
  · simp [stepEvent, h]

/-- Witness for C7: decrementing from a concrete state with count 0 leaves
the count at 0. -/
theorem iteration_count_behavior_witness :
    ({ initState with iteration_count := 0 } : AppState).iteration_count = 0 ∧
    (stepEvent (Event.keydown Key.down)
      { initState with iteration_count := 0 }).iteration_count = 0 :=
  ⟨rfl, iteration_count_behavior.2.2.1 { initState with iteration_count := 0 }
    rfl⟩

/-- C8: panning by `(dx, dy)` and then by `(-dx, -dy)` restores `left` and
`top` exactly.  Stated on the motion handler in panning mode; equality is
exact in the rational model of the double arithmetic. -/
theorem pan_inverse (s : AppState) (x1 y1 x2 y2 dx dy : ℚ)
    (hidx : s.point_dragging_index = 0)
    (hpan : s.position_dragging = true) :
    (stepEvent (Event.motion x2 y2 (-dx) (-dy))
        (stepEvent (Event.motion x1 y1 dx dy) s)).left = s.left ∧
    (stepEvent (Event.motion x2 y2 (-dx) (-dy))
        (stepEvent (Event.motion x1 y1 dx dy) s)).top = s.top := by
  simp [stepEvent, hidx, hpan]
  constructor <;> ring

/-- Witness for C8 at a concrete panning state and delta (1, 2). -/
theorem pan_inverse_witness :
    ({ initState with position_dragging := true } : AppState).point_dragging_index = 0 ∧
    ({ initState with position_dragging := true } : AppState).position_dragging = true ∧
    (stepEvent (Event.motion 0 0 (-1) (-2))
        (stepEvent (Event.motion 0 0 1 2)
          { initState with position_dragging := true })).left =
      ({ initState with position_dragging := true } : AppState).left ∧
    (stepEvent (Event.motion 0 0 (-1) (-2))
        (stepEvent (Event.motion 0 0 1 2)
          { initState with position_dragging := true })).top =
      ({ initState with position_dragging := true } : AppState).top := by
  refine ⟨rfl, rfl, ?_, ?_⟩
  · exact (pan_inverse { initState with position_dragging := true }
      0 0 0 0 1 2 rfl rfl).1
  · exact (pan_inverse { initState with position_dragging := true }
      0 0 0 0 1 2 rfl rfl).2

/-- C2 counterexample: from the initial state, a left button press at pixel
(3, 3), which lies inside the marker of root `a` (the marker rectangles start
at (0, 0), so the hit-test center is (5, 5)), followed by a right button
press with no intervening release, yields a reachable state in which both
the root-dragging mode and the viewport-panning mode are set at once: the
left-down handler does not clear `position_dragging` and the right-down
handler does not clear `point_dragging_index`. -/
theorem both_modes_counterexample :
    Reachable cexState ∧ cexState.point_dragging_index = 1 ∧
      cexState.position_dragging = true := by
  have h : is_in_range (initState.roots0.1 + 5) (initState.roots0.2 + 5)
      (3 : ℚ) 3 = true := by
    norm_num [is_in_range, initState]
  refine ⟨Reachable.ev _ (Reachable.ev _ Reachable.init), ?_, ?_⟩ <;>
    simp [cexState, stepEvent, h]

/-- C2 amended: both mode flags can be set simultaneously, so mutual
exclusion holds only at the effect level.  Every single pointer-motion event
either leaves the viewport origin (`left`, `top`) unchanged or leaves all
three roots unchanged: root dragging takes priority over panning whenever
both flags are set, regardless of which button was pressed first. -/
theorem motion_exclusive_effect (s : AppState) (x y dx dy : ℚ) :
    ((stepEvent (Event.motion x y dx dy) s).left = s.left ∧
     (stepEvent (Event.motion x y dx dy) s).top = s.top) ∨
    ((stepEvent (Event.motion x y dx dy) s).a = s.a ∧
     (stepEvent (Event.motion x y dx dy) s).b = s.b ∧
     (stepEvent (Event.motion x y dx dy) s).c = s.c) := by
  by_cases h : s.point_dragging_index ≠ 0
  · left
    simp only [stepEvent, if_pos h]
    cases hidx : s.point_dragging_index with
    | zero => exact absurd hidx h
    | succ n =>
        match n with
        | 0 => exact ⟨rfl, rfl⟩
        | 1 => exact ⟨rfl, rfl⟩
        | 2 => exact ⟨rfl, rfl⟩
        | m + 3 => exact ⟨rfl, rfl⟩
  · right
    simp only [stepEvent, if_neg h]
    by_cases hp : s.position_dragging <;> simp [hp]

/-- C10: the left-down handler hit-tests the markers in the fixed order
`a`, `b`, `c`; a test succeeds exactly when the pointer lies in the open
axis-aligned square of half-side 5 around the marker center (not a Euclidean
disc: the corner offset (4, 4) passes the square test but lies at squared
distance 32 > 25 from the center); the first marker that passes becomes the
dragged root, so root `a` wins whenever overlapping markers contain the
pointer; a miss of all three leaves the drag index unchanged. -/
theorem left_down_hit_test :
    (∀ x1 y1 x2 y2 : ℚ,
      is_in_range x1 y1 x2 y2 = true ↔ (|x1 - x2| < 5 ∧ |y1 - y2| < 5)) ∧
    (is_in_range 0 0 4 4 = true ∧ ¬ (((0 : ℚ) - 4) ^ 2 + ((0 : ℚ) - 4) ^ 2 < 5 ^ 2)) ∧
    (∀ (s : AppState) (x y : ℚ),
      (is_in_range (s.roots0.1 + 5) (s.roots0.2 + 5) x y = true →
        (stepEvent (Event.buttonDown MouseButton.left x y) s).point_dragging_index = 1) ∧
      (is_in_range (s.roots0.1 + 5) (s.roots0.2 + 5) x y = false →
       is_in_range (s.roots1.1 + 5) (s.roots1.2 + 5) x y = true →
        (stepEvent (Event.buttonDown MouseButton.left x y) s).point_dragging_index = 2) ∧
      (is_in_range (s.roots0.1 + 5) (s.roots0.2 + 5) x y = false →
       is_in_range (s.roots1.1 + 5) (s.roots1.2 + 5) x y = false →
       is_in_range (s.roots2.1 + 5) (s.roots2.2 + 5) x y = true →
        (stepEvent (Event.buttonDown MouseButton.left x y) s).point_dragging_index = 3) ∧
      (is_in_range (s.roots0.1 + 5) (s.roots0.2 + 5) x y = false →
       is_in_range (s.roots1.1 + 5) (s.roots1.2 + 5) x y = false →
       is_in_range (s.roots2.1 + 5) (s.roots2.2 + 5) x y = false →
        stepEvent (Event.buttonDown MouseButton.left x y) s = s)) := by
  refine ⟨?_, ⟨by norm_num [is_in_range], by norm_num⟩, ?_⟩
  · intro x1 y1 x2 y2
    simp [is_in_range]
  · intro s x y
    refine ⟨fun h0 => ?_, fun h0 h1 => ?_, fun h0 h1 h2 => ?_,
      fun h0 h1 h2 => ?_⟩
    · simp [stepEvent, h0]
    · simp [stepEvent, h0, h1]
    · simp [stepEvent, h0, h1, h2]
    · simp [stepEvent, h0, h1, h2]

/-- Witness for C10: from the initial state, a left press at pixel (3, 3)
hits the marker of root `a` and makes it the dragged root. -/
theorem left_down_hit_test_witness :
    is_in_range (initState.roots0.1 + 5) (initState.roots0.2 + 5) 3 3 = true ∧
    (stepEvent (Event.buttonDown MouseButton.left 3 3)
        initState).point_dragging_index = 1 :=
  ⟨by norm_num [is_in_range, initState],
   (left_down_hit_test.2.2 initState 3 3).1
     (by norm_num [is_in_range, initState])⟩

/-- Aspect-ratio invariant is preserved by every single event. -/
theorem stepEvent_aspect (e : Event) (s : AppState)
    (h : s.unit_height = s.unit_width * ((HEIGHT : ℚ) / (WIDTH : ℚ))) :
    (stepEvent e s).unit_height =
      (stepEvent e s).unit_width * ((HEIGHT : ℚ) / (WIDTH : ℚ)) := by
  cases e with
  | quit => simpa [stepEvent] using h
  | windowResized => simpa [stepEvent] using h
  | buttonUp b => cases b <;> simpa [stepEvent] using h
  | buttonDown b x y =>
      cases b with
      | left =>
          simp only [stepEvent]
          split_ifs <;> simpa using h
      | right => simpa [stepEvent] using h
      | other => simpa [stepEvent] using h
  | motion x y xrel yrel =>
      simp only [stepEvent]
      split_ifs with h1 h2
      · cases hidx : s.point_dragging_index with
        | zero => exact absurd hidx h1
        | succ n =>
            match n with
            | 0 => simpa using h
            | 1 => simpa using h
            | 2 => simpa using h
            | m + 3 => simpa using h
      · simpa using h
      · simpa using h
  | wheel y =>
      simp only [stepEvent]
      split_ifs with h1
      · exact h
      · simp
  | keydown k => cases k <;> simpa [stepEvent] using h

/-- Aspect-ratio invariant is preserved by the held-key sampling. -/
theorem stepHeld_aspect (k : Keys) (s : AppState)
    (h : s.unit_height = s.unit_width * ((HEIGHT : ℚ) / (WIDTH : ℚ))) :
    (stepHeld k s).unit_height =
      (stepHeld k s).unit_width * ((HEIGHT : ℚ) / (WIDTH : ℚ)) := by
  have h1 : (heldPanLR k s).unit_height =
      (heldPanLR k s).unit_width * ((HEIGHT : ℚ) / (WIDTH : ℚ)) := by
    unfold heldPanLR
    split_ifs <;> simpa using h
  have h2 : (heldPanUD k (heldPanLR k s)).unit_height =
      (heldPanUD k (heldPanLR k s)).unit_width *
        ((HEIGHT : ℚ) / (WIDTH : ℚ)) := by
    unfold heldPanUD
    split_ifs <;> simpa using h1
  unfold stepHeld heldZoom
  split_ifs <;> simp [h2]

/-- Aspect-ratio invariant is preserved by the render block. -/
theorem renderStep_aspect (s : AppState)
    (h : s.unit_height = s.unit_width * ((HEIGHT : ℚ) / (WIDTH : ℚ))) :
    (renderStep s).unit_height =
      (renderStep s).unit_width * ((HEIGHT : ℚ) / (WIDTH : ℚ)) := by
  unfold renderStep
  split_ifs <;> simpa using h

/-- C5: in every reachable state of the interaction machine the viewport
satisfies `unit_height = unit_width * HEIGHT / WIDTH`; equality is exact in
the rational model of the double arithmetic, which subsumes the 1-ulp
tolerance of the claim.  Every mutation of `unit_width` immediately
recomputes `unit_height` with this formula, and every other mutation leaves
both untouched. -/
theorem aspect_ratio_invariant (s : AppState) (h : Reachable s) :
    s.unit_height = s.unit_width * ((HEIGHT : ℚ) / (WIDTH : ℚ)) := by
  induction h with
  | init => rfl
  | ev e _ ih => exact stepEvent_aspect e _ ih
  | held k _ ih => exact stepHeld_aspect k _ ih
  | render _ ih => exact renderStep_aspect _ ih

/-- Witness for C5 at the initial state. -/
theorem aspect_ratio_invariant_witness :
    Reachable initState ∧
      initState.unit_height =
        initState.unit_width * ((HEIGHT : ℚ) / (WIDTH : ℚ)) :=
  ⟨Reachable.init, aspect_ratio_invariant initState Reachable.init⟩

/-- Byte `n * 4 + k` of the buffer belongs to the 4-byte block of pixel
number `n`. -/
theorem blockByte_div (n k : ℕ) (hk : k < 4) : (n * 4 + k) / 4 = n := by
  omega

/-- A classify cell touches only the three channel bytes of its own pixel
block: any byte outside the block is left unchanged. -/
theorem classifyWrite_ne (a b c : KC) (w : ℕ) (x : KC) (row col : ℕ)
    (out : ℕ → ℕ) (j : ℕ) (hj : j / 4 ≠ row * w + col) :
    classifyWrite a b c w x row col out j = out j := by
  have k0 : j ≠ (row * w + col) * 4 := by omega
  have k1 : j ≠ (row * w + col) * 4 + 1 := by omega
  have k2 : j ≠ (row * w + col) * 4 + 2 := by omega
  simp only [classifyWrite]
  split_ifs <;> simp [writeByte, k0, k1, k2]

/-- The value a classify cell leaves at a byte of its own block depends on
the incoming buffer only through that same byte. -/
theorem classifyWrite_congr (a b c : KC) (w : ℕ) (x : KC) (row col : ℕ)
    (out out2 : ℕ → ℕ) (j : ℕ) (h : out j = out2 j) :
    classifyWrite a b c w x row col out j =
      classifyWrite a b c w x row col out2 j := by
  simp only [classifyWrite]
  split_ifs <;> simp [writeByte, h]

/-- Folding classify cells over a list of pixels none of which owns byte `j`
leaves byte `j` unchanged. -/
theorem foldl_classify_ne {a b c : KC} {N w : ℕ} {unit left top : KVal}
    {L : List (ℕ × ℕ)} {out : ℕ → ℕ} {j : ℕ}
    (hL : ∀ p ∈ L, j / 4 ≠ p.1 * w + p.2) :
    (L.foldl
      (fun o p =>
        classifyWrite a b c w (finalZ a b c N unit left top p) p.1 p.2 o)
      out) j = out j := by
  induction L generalizing out with
  | nil => rfl
  | cons p L ih =>
      simp only [List.foldl_cons]
      rw [ih fun q hq => hL q (List.mem_cons_of_mem _ hq),
        classifyWrite_ne _ _ _ _ _ _ _ _ _ (hL p (List.mem_cons_self _ _))]

/-- Division and remainder recover the row and the column from the row-major
pixel number. -/
theorem rowcol_div (row col w : ℕ) (hc : col < w) :
    (row * w + col) / w = row := by
  have hw : 0 < w := Nat.lt_of_le_of_lt (Nat.zero_le _) hc
  rw [Nat.mul_comm, Nat.mul_add_div hw, Nat.div_eq_of_lt hc, Nat.add_zero]

/-- Remainder part of the row-major decoding. -/
theorem rowcol_mod (row col w : ℕ) (hc : col < w) :
    (row * w + col) % w = col := by
  rw [Nat.mul_comm, Nat.mul_add_mod, Nat.mod_eq_of_lt hc]

/-- Each byte of a pixel block of the output buffer of `newton` equals the
byte the classify pass of that one pixel writes over the zero buffer: every
other cell of the pass writes into a disjoint block. -/
theorem newtonOut_block (a b c : KC) (N w h row col : ℕ)
    (unit left top : KVal) (hr : row < h) (hc : col < w) (k : ℕ)
    (hk : k < 4) :
    newtonOut a b c N w h unit left top ((row * w + col) * 4 + k) =
      classifyWrite a b c w (finalZ a b c N unit left top (row, col)) row col
        zeroBuf ((row * w + col) * 4 + k) := by
  have hw : 0 < w := Nat.lt_of_le_of_lt (Nat.zero_le _) hc
  have hlt : row * w + col < h * w := by
    have h1 : row * w + col < row * w + w := Nat.add_lt_add_left hc _
    have h2 : row * w + w ≤ h * w := by
      have h3 : (row + 1) * w ≤ h * w := Nat.mul_le_mul_right _ hr
      simpa [Nat.succ_mul] using h3
    exact Nat.lt_of_lt_of_le h1 h2
  have hsplit : List.range (h * w) =
      (List.range (row * w + col) ++ [row * w + col]) ++
        (List.range (h * w - (row * w + col + 1))).map
          (fun m => row * w + col + 1 + m) := by
    rw [← List.range_succ, ← List.range_add]
    congr 1
    omega
  rw [newtonOut, pixList, hsplit, List.map_append, List.map_append,
    List.foldl_append, List.foldl_append]
  simp only [List.map_cons, List.map_nil, List.foldl_cons, List.foldl_nil]
  rw [rowcol_div row col w hc, rowcol_mod row col w hc]
  have htail : ∀ p ∈ ((List.range (h * w - (row * w + col + 1))).map
      (fun m => row * w + col + 1 + m)).map (fun n => (n / w, n % w)),
      ((row * w + col) * 4 + k) / 4 ≠ p.1 * w + p.2 := by
    intro p hp
    rw [blockByte_div _ k hk]
    rcases List.mem_map.1 hp with ⟨q, hq, rfl⟩
    rcases List.mem_map.1 hq with ⟨m, _, rfl⟩
    dsimp only
    rw [Nat.div_add_mod']
    omega
  have hinner : ∀ p ∈ (List.range (row * w + col)).map
      (fun n => (n / w, n % w)),
      ((row * w + col) * 4 + k) / 4 ≠ p.1 * w + p.2 := by
    intro p hp
    rw [blockByte_div _ k hk]
    rcases List.mem_map.1 hp with ⟨m, hm, rfl⟩
    dsimp only
    rw [Nat.div_add_mod']
    have := List.mem_range.1 hm
    omega
  rw [foldl_classify_ne htail]
  exact classifyWrite_congr _ _ _ _ _ _ _ _ _ _ (foldl_classify_ne hinner)

/-- Over the zero buffer, a classify cell sets exactly one channel byte of
its block to `FILL_INTENSITY`, the other two channel bytes to 0, and the
alpha byte to 0, whatever booleans the distance comparisons produce. -/
theorem classifyWrite_zero_block (a b c : KC) (w : ℕ) (x : KC)
    (row col : ℕ) :
    (classifyWrite a b c w x row col zeroBuf ((row * w + col) * 4) =
        FILL_INTENSITY ∧
      classifyWrite a b c w x row col zeroBuf ((row * w + col) * 4 + 1) = 0 ∧
      classifyWrite a b c w x row col zeroBuf ((row * w + col) * 4 + 2) = 0 ∨
     classifyWrite a b c w x row col zeroBuf ((row * w + col) * 4) = 0 ∧
      classifyWrite a b c w x row col zeroBuf ((row * w + col) * 4 + 1) =
        FILL_INTENSITY ∧
      classifyWrite a b c w x row col zeroBuf ((row * w + col) * 4 + 2) = 0 ∨
     classifyWrite a b c w x row col zeroBuf ((row * w + col) * 4) = 0 ∧
      classifyWrite a b c w x row col zeroBuf ((row * w + col) * 4 + 1) = 0 ∧
      classifyWrite a b c w x row col zeroBuf ((row * w + col) * 4 + 2) =
        FILL_INTENSITY) ∧
    classifyWrite a b c w x row col zeroBuf ((row * w + col) * 4 + 3) = 0 := by
  have hsame : ∀ (out : ℕ → ℕ) (i v : ℕ), writeByte out i v i = v := by
    intro out i v
    simp [writeByte]
  have hother : ∀ (out : ℕ → ℕ) (i v j : ℕ), j ≠ i →
      writeByte out i v j = out j := by
    intro out i v j h
    simp [writeByte, h]
  simp only [classifyWrite]
  split_ifs
  · exact ⟨Or.inl ⟨hsame _ _ _, by rw [hother _ _ _ _ (by omega)]; rfl,
      by rw [hother _ _ _ _ (by omega)]; rfl⟩, by rw [hother _ _ _ _ (by omega)]; rfl⟩
  · exact ⟨Or.inr (Or.inl ⟨by rw [hother _ _ _ _ (by omega)]; rfl, hsame _ _ _,
      by rw [hother _ _ _ _ (by omega)]; rfl⟩), by rw [hother _ _ _ _ (by omega)]; rfl⟩
  · exact ⟨Or.inr (Or.inr ⟨by rw [hother _ _ _ _ (by omega)]; rfl,
      by rw [hother _ _ _ _ (by omega)]; rfl, hsame _ _ _⟩),
      by rw [hother _ _ _ _ (by omega)]; rfl⟩

/-- C1: for every input (roots, iteration count, viewport, dimensions),
including inputs whose iterates go non-finite, every pixel of the output
buffer has exactly one of its channel bytes 0, 1, 2 equal to
`FILL_INTENSITY` with the other two equal to 0, and its alpha byte (byte 3)
equal to 0: the buffer is zero-filled first, and the classify chain writes
exactly one channel of each block. -/
theorem newton_pixel_exclusive (a b c : KC) (N w h row col : ℕ)
    (unit left top : KVal) (hr : row < h) (hc : col < w) :
    (newtonOut a b c N w h unit left top ((row * w + col) * 4) =
        FILL_INTENSITY ∧
      newtonOut a b c N w h unit left top ((row * w + col) * 4 + 1) = 0 ∧
      newtonOut a b c N w h unit left top ((row * w + col) * 4 + 2) = 0 ∨
     newtonOut a b c N w h unit left top ((row * w + col) * 4) = 0 ∧
      newtonOut a b c N w h unit left top ((row * w + col) * 4 + 1) =
        FILL_INTENSITY ∧
      newtonOut a b c N w h unit left top ((row * w + col) * 4 + 2) = 0 ∨
     newtonOut a b c N w h unit left top ((row * w + col) * 4) = 0 ∧
      newtonOut a b c N w h unit left top ((row * w + col) * 4 + 1) = 0 ∧
      newtonOut a b c N w h unit left top ((row * w + col) * 4 + 2) =
        FILL_INTENSITY) ∧
    newtonOut a b c N w h unit left top ((row * w + col) * 4 + 3) = 0 := by
  have e0 := newtonOut_block a b c N w h row col unit left top hr hc 0
    (by norm_num)
  have e1 := newtonOut_block a b c N w h row col unit left top hr hc 1
    (by norm_num)
  have e2 := newtonOut_block a b c N w h row col unit left top hr hc 2
    (by norm_num)
  have e3 := newtonOut_block a b c N w h row col unit left top hr hc 3
    (by norm_num)
  rw [Nat.add_zero] at e0
  rw [e0, e1, e2, e3]
  exact classifyWrite_zero_block a b c w
    (finalZ a b c N unit left top (row, col)) row col

/-- Witness for C1 on a 1 by 1 buffer with non-finite roots and zero
iterations. -/
theorem newton_pixel_exclusive_witness :
    ((0 : ℕ) < 1 ∧ (0 : ℕ) < 1) ∧
    ((newtonOut ⟨none, none⟩ ⟨none, none⟩ ⟨none, none⟩ 0 1 1 (some 1) (some 0)
          (some 0) ((0 * 1 + 0) * 4) = FILL_INTENSITY ∧
        newtonOut ⟨none, none⟩ ⟨none, none⟩ ⟨none, none⟩ 0 1 1 (some 1)
          (some 0) (some 0) ((0 * 1 + 0) * 4 + 1) = 0 ∧
        newtonOut ⟨none, none⟩ ⟨none, none⟩ ⟨none, none⟩ 0 1 1 (some 1)
          (some 0) (some 0) ((0 * 1 + 0) * 4 + 2) = 0 ∨
       newtonOut ⟨none, none⟩ ⟨none, none⟩ ⟨none, none⟩ 0 1 1 (some 1)
          (some 0) (some 0) ((0 * 1 + 0) * 4) = 0 ∧
        newtonOut ⟨none, none⟩ ⟨none, none⟩ ⟨none, none⟩ 0 1 1 (some 1)
          (some 0) (some 0) ((0 * 1 + 0) * 4 + 1) = FILL_INTENSITY ∧
        newtonOut ⟨none, none⟩ ⟨none, none⟩ ⟨none, none⟩ 0 1 1 (some 1)
          (some 0) (some 0) ((0 * 1 + 0) * 4 + 2) = 0 ∨
       newtonOut ⟨none, none⟩ ⟨none, none⟩ ⟨none, none⟩ 0 1 1 (some 1)
          (some 0) (some 0) ((0 * 1 + 0) * 4) = 0 ∧
        newtonOut ⟨none, none⟩ ⟨none, none⟩ ⟨none, none⟩ 0 1 1 (some 1)
          (some 0) (some 0) ((0 * 1 + 0) * 4 + 1) = 0 ∧
        newtonOut ⟨none, none⟩ ⟨none, none⟩ ⟨none, none⟩ 0 1 1 (some 1)
          (some 0) (some 0) ((0 * 1 + 0) * 4 + 2) = FILL_INTENSITY) ∧
      newtonOut ⟨none, none⟩ ⟨none, none⟩ ⟨none, none⟩ 0 1 1 (some 1)
        (some 0) (some 0) ((0 * 1 + 0) * 4 + 3) = 0) :=
  ⟨⟨Nat.zero_lt_one, Nat.zero_lt_one⟩,
   newton_pixel_exclusive ⟨none, none⟩ ⟨none, none⟩ ⟨none, none⟩ 0 1 1 0 0
     (some 1) (some 0) (some 0) Nat.zero_lt_one Nat.zero_lt_one⟩

/-- A non-finite component of the iterate makes the whole squared distance
to any root non-finite. -/
theorem hyp2_nan (x y : KC) (hx : x.re = none ∨ x.im = none) :
    hyp2 (csub x y) = none := by
  obtain ⟨xr, xi⟩ := x
  rcases hx with h | h <;> simp only at h <;> subst h
  · have h1 : ksub none y.re = none := by cases y.re <;> rfl
    simp only [hyp2, csub, h1]
    have h2 : kmul none none = none := rfl
    simp only [h2]
    cases kmul (ksub xi y.im) (ksub xi y.im) <;> rfl
  · have h1 : ksub none y.im = none := by cases y.im <;> rfl
    simp only [hyp2, csub, h1]
    have h2 : kmul none none = none := rfl
    simp only [h2]
    cases kmul (ksub xr y.re) (ksub xr y.re) <;> rfl

/-- Comparison against a non-finite value is false on either side. -/
theorem kle_nan (u v : KVal) (h : u = none ∨ v = none) :
    kle u v = false := by
  rcases h with h | h <;> subst h
  · cases v <;> rfl
  · cases u <;> rfl

/-- C9: when the final iterate of a pixel has a non-finite (NaN) component,
every squared-distance comparison of the classify pass is false, so the
else branch fires and channel 2 (the channel of root `c`) receives
`FILL_INTENSITY` while channels 0 and 1 keep their zero from the memset:
root `c`, not root `a`, colors non-finite pixels. -/
theorem nan_classify_root_c (a b c x : KC) (w row col : ℕ) (out : ℕ → ℕ)
    (hx : x.re = none ∨ x.im = none) :
    kle (hyp2 (csub x a)) (hyp2 (csub x b)) = false ∧
    kle (hyp2 (csub x a)) (hyp2 (csub x c)) = false ∧
    kle (hyp2 (csub x b)) (hyp2 (csub x a)) = false ∧
    kle (hyp2 (csub x b)) (hyp2 (csub x c)) = false ∧
    classifyWrite a b c w x row col out =
      writeByte out ((row * w + col) * 4 + 2) FILL_INTENSITY := by
  have ha := hyp2_nan x a hx
  have hb := hyp2_nan x b hx
  have hc := hyp2_nan x c hx
  refine ⟨kle_nan _ _ (Or.inl ha), kle_nan _ _ (Or.inl ha),
    kle_nan _ _ (Or.inl hb), kle_nan _ _ (Or.inl hb), ?_⟩
  simp only [classifyWrite, kle_nan _ _ (Or.inl ha), kle_nan _ _ (Or.inl hb),
    Bool.false_and, Bool.and_self, if_neg (by simp : ¬ (false = true))]

/-- Witness for C9: a concrete iterate with a non-finite real part lands in
the channel of root `c`. -/
theorem nan_classify_root_c_witness :
    ((⟨none, some 0⟩ : KC).re = none ∨ (⟨none, some 0⟩ : KC).im = none) ∧
    classifyWrite ⟨some 0, some 0⟩ ⟨some 1, some 0⟩ ⟨some 2, some 0⟩ 1
        ⟨none, some 0⟩ 0 0 zeroBuf =
      writeByte zeroBuf ((0 * 1 + 0) * 4 + 2) FILL_INTENSITY :=
  ⟨Or.inl rfl,
   (nan_classify_root_c ⟨some 0, some 0⟩ ⟨some 1, some 0⟩ ⟨some 2, some 0⟩
     ⟨none, some 0⟩ 1 0 0 zeroBuf (Or.inl rfl)).2.2.2.2⟩
